import Mathlib

/-!
Shallow embedding of the two news-fetching pipelines of the repository:
`fetch_hacker_news` (src/news_getter/hacker_news.py) and
`fetch_yahoo_news` (src/news_getter/yahoo_news/yahoo_news.py).

Each Python function performs one HTTP GET and then parses the HTML
document with BeautifulSoup.  The embedding models the HTTP outcome as an
explicit sum type and each document as the list of the repeating item
containers that the parser queries, carrying exactly the query results
(optional sub-elements, stripped text, optional attributes) that the code
reads.  Python string operations used by the code (`str.startswith`,
substring membership via `in`, `str.split()` and `int(...)`) are embedded
over `List Char`.
-/

/-- `listStartsWith s p` is true when `p` is an initial segment of `s`;
embeds Python `s.startswith(p)` over the character lists. -/
def listStartsWith : List Char → List Char → Bool
  | _, [] => true
  | [], _ :: _ => false
  | c :: cs, p :: ps => c = p && listStartsWith cs ps

/-- Python `s.startswith(p)` on strings. -/
def strStartsWith (s p : String) : Bool :=
  listStartsWith s.data p.data

/-- `listHasSub s p` is true when `p` occurs contiguously inside `s`;
embeds Python `p in s`. -/
def listHasSub : List Char → List Char → Bool
  | [], p => p.isEmpty
  | c :: cs, p => listStartsWith (c :: cs) p || listHasSub cs p

/-- Python `p in s` on strings. -/
def strHasSub (s p : String) : Bool :=
  listHasSub s.data p.data

/-- First whitespace-separated token of a character list, embedding
Python `s.split()[0]`: `none` models the `IndexError` raised when the
string has no token. -/
def firstToken (l : List Char) : Option (List Char) :=
  match l.dropWhile (fun c => c.isWhitespace) with
  | [] => none
  | c :: cs => some ((c :: cs).takeWhile (fun c => !c.isWhitespace))

/-- Digits (with Python's single-underscore digit grouping) accumulated
into a natural number; `none` models `ValueError`. -/
def pyDigitsAux : List Char → Nat → Option Nat
  | [], acc => some acc
  | '_' :: c :: rest, acc =>
      if c.isDigit then pyDigitsAux rest (acc * 10 + (c.toNat - 48)) else none
  | ['_'], _ => none
  | c :: rest, acc =>
      if c.isDigit then pyDigitsAux rest (acc * 10 + (c.toNat - 48)) else none

/-- A nonempty digit sequence parsed as a natural number, `none` on any
malformed input; helper for `pyInt`. -/
def pyNatDigits : List Char → Option Nat
  | [] => none
  | c :: rest =>
      if c.isDigit then pyDigitsAux rest (c.toNat - 48) else none

/-- Python `int(token)` for a whitespace-free token: optional sign
followed by digits; `none` models the `ValueError` raised otherwise. -/
def pyInt : List Char → Option Int
  | '+' :: rest => (pyNatDigits rest).map Int.ofNat
  | '-' :: rest => (pyNatDigits rest).map (fun n => -(n : Int))
  | l => (pyNatDigits l).map Int.ofNat

/-- BeautifulSoup `find_all(..., limit=n)`: a falsy (zero) limit returns
every match, a positive limit returns the first `n` matches. -/
def bs4Limit (n : Nat) (l : List α) : List α :=
  if n = 0 then l else l.take n

/-- Result of `<a>.get_text(strip=True)` and `<a>.get('href', '')` for an
anchor element found by the parsers. -/
structure Anchor where
  text : String
  href? : Option String
deriving DecidableEq, Repr

/-- The `<span class="titleline">` element of a Hacker News story row:
`link?` is the result of `titleline.find('a')`. -/
structure HNTitleLine where
  link? : Option Anchor
deriving DecidableEq, Repr

/-- The `<span class="age">` element: `link?` carries the stripped text of
the nested anchor when `age_span.find('a')` succeeds. -/
structure HNAge where
  link? : Option String
deriving DecidableEq, Repr

/-- The `<td class="subtext">` element of the metadata row.
`scoreText?` is the stripped text of the score span when
`subtext.find('span', class_='score')` succeeds; `author?` the stripped
text of the `hnuser` anchor; `age?` the age span. -/
structure HNSubtext where
  scoreText? : Option String
  author? : Option String
  age? : Option HNAge
deriving DecidableEq, Repr

/-- The `<tr>` returned by `story.find_next_sibling('tr')`: `subtext?` is
the result of looking up its `td.subtext`. -/
structure HNSibRow where
  subtext? : Option HNSubtext
deriving DecidableEq, Repr

/-- One `<tr class="athing">` story row as the parser queries it. -/
structure HNStory where
  titleline? : Option HNTitleLine
  nextSibling? : Option HNSibRow
deriving DecidableEq, Repr

/-- The record built for each Hacker News story
(Python `HackerNewsItem` TypedDict). -/
structure HackerNewsItem where
  title : String
  url : String
  score : Int
  author : String
  date : String
deriving DecidableEq, Repr

/-- The body of the per-story loop of `fetch_hacker_news`: `none` models
every `continue` (missing element, or an `AttributeError` / `ValueError`
/ `IndexError` caught by the per-item handler), `some` the appended
record. -/
def processStory (story : HNStory) : Option HackerNewsItem :=
  match story.titleline? with
  | none => none
  | some titleline =>
    match titleline.link? with
    | none => none
    | some link =>
      let title := link.text
      let href := link.href?.getD ""
      let href :=
        if strStartsWith href "item?id=" then
          "https://news.ycombinator.com/" ++ href
        else href
      match story.nextSibling? with
      | none => none
      | some sib =>
        match sib.subtext? with
        | none => none
        | some subtext =>
          let score? : Option Int :=
            match subtext.scoreText? with
            | none => some 0
            | some scoreText =>
              if scoreText = "" then some 0
              else
                match firstToken scoreText.data with
                | none => none
                | some tok => pyInt tok
          match score? with
          | none => none
          | some score =>
            let author := subtext.author?.getD "unknown"
            let date :=
              match subtext.age? with
              | none => "unknown"
              | some age => age.link?.getD "unknown"
            some ⟨title, href, score, author, date⟩

/-- Comparison used by `news_items.sort(key=lambda x: x['score'],
reverse=True)`: a stable sort that puts higher scores first. -/
def hnScoreGE (a b : HackerNewsItem) : Bool :=
  b.score ≤ a.score

/-- The items successfully extracted from the first `limit` story rows,
in document order, before sorting. -/
def hnExtract (limit : Nat) (doc : List HNStory) : List HackerNewsItem :=
  (bs4Limit limit doc).filterMap processStory

/-- Errors raised by both fetch functions: `connectionError`,
`timeoutError` and `valueError` embed the Python exception classes of the
same names. -/
inductive FetchError where
  | connectionError
  | timeoutError
  | valueError
deriving DecidableEq, Repr

/-- The parse phase of `fetch_hacker_news` on an already-fetched
document: extract up to `limit` stories, fail with `ValueError` when
nothing was extracted, otherwise sort by score descending (Python's
stable sort with `reverse=True`). -/
def hnParse (limit : Nat) (doc : List HNStory) :
    Except FetchError (List HackerNewsItem) :=
  let news_items := hnExtract limit doc
  if news_items.isEmpty then
    .error .valueError
  else
    .ok (news_items.mergeSort hnScoreGE)

/-- Outcome of the single HTTP GET (with `raise_for_status`):
`connError` embeds `requests.exceptions.ConnectionError`, `timeoutExc`
embeds `requests.exceptions.Timeout`, `otherExc` any other
`requests.exceptions.RequestException`, and `response` a received
response with its status flag (`statusOk = false` makes
`raise_for_status` raise `HTTPError`, a `RequestException`). -/
inductive HttpResult (δ : Type) where
  | connError
  | timeoutExc
  | otherExc
  | response (statusOk : Bool) (doc : δ)
deriving DecidableEq, Repr

/-- `fetch_hacker_news(limit, timeout)` as a function of the network
outcome: classify transport failures, then parse. -/
def fetch_hacker_news (limit : Nat) (net : HttpResult (List HNStory)) :
    Except FetchError (List HackerNewsItem) :=
  match net with
  | .connError => .error .connectionError
  | .timeoutExc => .error .timeoutError
  | .otherExc => .error .connectionError
  | .response ok doc =>
      if ok then hnParse limit doc else .error .connectionError

/-- The `<h3 data-test-locator="stream-item-title">` element of a Yahoo
stream item: `link?` is the result of `title_elem.find('a')`. -/
structure YTitleElem where
  link? : Option Anchor
deriving DecidableEq, Repr

/-- One `<li class="stream-item">` container as the parser queries it:
the optional title element, the stripped text of the publisher span when
present, and the stripped text of the read-time span when present. -/
structure YStreamItem where
  titleElem? : Option YTitleElem
  publisher? : Option String
  readTime? : Option String
deriving DecidableEq, Repr

/-- The record built for each Yahoo News story
(Python `YahooNewsItem` TypedDict). -/
structure YahooNewsItem where
  title : String
  url : String
  author : String
  date : String
deriving DecidableEq, Repr

/-- The body of the per-item loop of `fetch_yahoo_news`: `none` models
every `continue` (missing element, empty trimmed title or link, a link
neither site-relative nor absolute, a link without an article path
marker, or a caught per-item exception), `some` the appended record. -/
def processYahooItem (item : YStreamItem) : Option YahooNewsItem :=
  match item.titleElem? with
  | none => none
  | some titleElem =>
    match titleElem.link? with
    | none => none
    | some link =>
      let title := link.text
      let href := link.href?.getD ""
      if title = "" ∨ href = "" then none
      else
        let keep : Option String :=
          if strStartsWith href "/" then
            some ("https://news.yahoo.com" ++ href)
          else if !strStartsWith href "http" then
            none
          else
            some href
        match keep with
        | none => none
        | some href =>
          if !(strHasSub href "/news/") ∧ !(strHasSub href "/articles/") then
            none
          else
            let author := item.publisher?.getD "Yahoo News"
            let date := item.readTime?.getD "recent"
            some ⟨title, href, author, date⟩

/-- The `for item in stream_items` loop of `fetch_yahoo_news`, with its
early `break` once `limit` records have been collected, threading the
accumulated `news_items`. -/
def yahooLoop (limit : Nat) : List YStreamItem → List YahooNewsItem →
    List YahooNewsItem
  | [], acc => acc
  | item :: rest, acc =>
      if limit ≤ acc.length then acc
      else
        match processYahooItem item with
        | none => yahooLoop limit rest acc
        | some r => yahooLoop limit rest (acc ++ [r])

/-- The parse phase of `fetch_yahoo_news` on an already-fetched document:
scan the first `limit * 2` stream items, collect up to `limit` accepted
records in document order, fail with `ValueError` when nothing was
collected. -/
def yahooParse (limit : Nat) (doc : List YStreamItem) :
    Except FetchError (List YahooNewsItem) :=
  let stream_items := bs4Limit (limit * 2) doc
  let news_items := yahooLoop limit stream_items []
  if news_items.isEmpty then
    .error .valueError
  else
    .ok news_items

/-- `fetch_yahoo_news(limit, timeout)` as a function of the network
outcome: the same transport classification as `fetch_hacker_news`,
then parse. -/
def fetch_yahoo_news (limit : Nat) (net : HttpResult (List YStreamItem)) :
    Except FetchError (List YahooNewsItem) :=
  match net with
  | .connError => .error .connectionError
  | .timeoutExc => .error .timeoutError
  | .otherExc => .error .connectionError
  | .response ok doc =>
      if ok then yahooParse limit doc else .error .connectionError

/-- A fully well-formed Hacker News story row (score 80). -/
def hnStoryA : HNStory :=
  ⟨some ⟨some ⟨"Alpha", some "https://example.com/a"⟩⟩,
   some ⟨some ⟨some "80 points", some "alice", some ⟨some "1 hour ago"⟩⟩⟩⟩

/-- The record extracted from `hnStoryA`. -/
def hnItemA : HackerNewsItem :=
  ⟨"Alpha", "https://example.com/a", 80, "alice", "1 hour ago"⟩

/-- A well-formed story row with a site-relative link and score 40,
falling back to the default author and date. -/
def hnStoryB : HNStory :=
  ⟨some ⟨some ⟨"Beta", some "item?id=100"⟩⟩,
   some ⟨some ⟨some "40 points", none, none⟩⟩⟩

/-- The record extracted from `hnStoryB`. -/
def hnItemB : HackerNewsItem :=
  ⟨"Beta", "https://news.ycombinator.com/item?id=100", 40, "unknown", "unknown"⟩

/-- A well-formed story row with score 40 (same score as `hnStoryD`). -/
def hnStoryC : HNStory :=
  ⟨some ⟨some ⟨"Gamma", some "https://example.com/c"⟩⟩,
   some ⟨some ⟨some "40 points", some "carol", none⟩⟩⟩

/-- The record extracted from `hnStoryC`. -/
def hnItemC : HackerNewsItem :=
  ⟨"Gamma", "https://example.com/c", 40, "carol", "unknown"⟩

/-- A well-formed story row with score 40 (same score as `hnStoryC`). -/
def hnStoryD : HNStory :=
  ⟨some ⟨some ⟨"Delta", some "https://example.com/d"⟩⟩,
   some ⟨some ⟨some "40 points", some "dave", none⟩⟩⟩

/-- The record extracted from `hnStoryD`. -/
def hnItemD : HackerNewsItem :=
  ⟨"Delta", "https://example.com/d", 40, "dave", "unknown"⟩

/-- A fully well-formed Yahoo stream item with a site-relative link. -/
def yStreamA : YStreamItem :=
  ⟨some ⟨some ⟨"Hello", some "/news/hello.html"⟩⟩, some "Reuters", some "3 min read"⟩

/-- The record extracted from `yStreamA`. -/
def yRecA : YahooNewsItem :=
  ⟨"Hello", "https://news.yahoo.com/news/hello.html", "Reuters", "3 min read"⟩

/-- A Yahoo stream item lacking the title element entirely. -/
def yStreamBad : YStreamItem := ⟨none, none, none⟩

/-- A fully well-formed Yahoo stream item with an absolute link, falling
back to the default author and date. -/
def yStreamB : YStreamItem :=
  ⟨some ⟨some ⟨"World", some "https://news.yahoo.com/articles/world"⟩⟩, none, none⟩

/-- The record extracted from `yStreamB`. -/
def yRecB : YahooNewsItem :=
  ⟨"World", "https://news.yahoo.com/articles/world", "Yahoo News", "recent"⟩

/-- A well-formed story row whose href is relative but does not start
with the item-id marker. -/
def hnStoryRel : HNStory :=
  ⟨some ⟨some ⟨"Example", some "relative.html"⟩⟩,
   some ⟨some ⟨some "12 points", some "erin", none⟩⟩⟩

/-- The record extracted from `hnStoryRel`: its url is kept relative. -/
def hnItemRel : HackerNewsItem :=
  ⟨"Example", "relative.html", 12, "erin", "unknown"⟩

/-- A story row whose score label text does not start with a numeric
token. -/
def hnStoryBadScore : HNStory :=
  ⟨some ⟨some ⟨"Odd", some "https://example.com/o"⟩⟩,
   some ⟨some ⟨some "points only", some "oscar", none⟩⟩⟩

/-- A story row whose anchor text is empty. -/
def hnStoryEmptyTitle : HNStory :=
  ⟨some ⟨some ⟨"", some "https://example.com/e"⟩⟩,
   some ⟨some ⟨some "5 points", some "eve", none⟩⟩⟩

/-- The record extracted from `hnStoryEmptyTitle`: its title is empty. -/
def hnItemEmptyTitle : HackerNewsItem :=
  ⟨"", "https://example.com/e", 5, "eve", "unknown"⟩

/-- Equality of fetch results is decidable, allowing concrete runs of the
pipelines to be checked by evaluation. -/
instance (eps : Type) [DecidableEq eps] (alp : Type) [DecidableEq alp] :
    DecidableEq (Except eps alp) := fun a b =>
  match a, b with
  | .error x, .error y =>
      if h : x = y then .isTrue (by rw [h]) else .isFalse (by simp [h])
  | .ok x, .ok y =>
      if h : x = y then .isTrue (by rw [h]) else .isFalse (by simp [h])
  | .error _, .ok _ => .isFalse (by simp)
  | .ok _, .error _ => .isFalse (by simp)

/-- The empty pattern is an initial segment of every string. -/
theorem listStartsWith_nil (s : List Char) : listStartsWith s [] = true := by
  cases s <;> rfl

/-- Extending the scanned string on the right preserves
`listStartsWith`. -/
theorem listStartsWith_append_of (s t p : List Char)
    (h : listStartsWith s p = true) : listStartsWith (s ++ t) p = true := by
  induction p generalizing s with
  | nil => exact listStartsWith_nil _
  | cons c cs ih =>
    cases s with
    | nil => exact absurd h (by simp [listStartsWith])
    | cons a as =>
      simp only [listStartsWith, Bool.and_eq_true] at h ⊢
      exact ⟨h.1, ih as h.2⟩

/-- Every record accepted by the per-item loop of `fetch_yahoo_news`
has a non-empty title, a url starting with `http`, and a url containing
one of the two article-path markers. -/
theorem processYahooItem_some (item : YStreamItem) (r : YahooNewsItem)
    (h : processYahooItem item = some r) :
    r.title ≠ "" ∧ strStartsWith r.url "http" = true ∧
      (strHasSub r.url "/news/" = true ∨ strHasSub r.url "/articles/" = true) := by
  obtain ⟨ti?, pub?, rt?⟩ := item
  cases ti? with
  | none => exact absurd h (by simp [processYahooItem])
  | some te =>
    obtain ⟨lk?⟩ := te
    cases lk? with
    | none => exact absurd h (by simp [processYahooItem])
    | some lk =>
      obtain ⟨txt, href?⟩ := lk
      simp only [processYahooItem] at h
      split at h
      · exact absurd h (by simp)
      · rename_i hne
        split at h
        · exact absurd h (by simp)
        · rename_i keep hkeep
          split at h
          · exact absurd h (by simp)
          · rename_i hmark
            obtain rfl : r = ⟨txt, keep, pub?.getD "Yahoo News", rt?.getD "recent"⟩ :=
              (Option.some_inj.mp h).symm
            push_neg at hne
            refine ⟨hne.1, ?_, ?_⟩
            · split at hkeep
              · rename_i hrel
                obtain rfl : keep = "https://news.yahoo.com" ++ href?.getD "" :=
                  (Option.some_inj.mp hkeep).symm
                show strStartsWith _ _ = true
                rw [strStartsWith, String.data_append]
                exact listStartsWith_append_of _ _ _ (by decide)
              · split at hkeep
                · exact absurd hkeep (by simp)
                · rename_i habs
                  obtain rfl : keep = href?.getD "" :=
                    (Option.some_inj.mp hkeep).symm
                  simpa using habs
            · rcases Decidable.not_and_iff_or_not.mp hmark with h1 | h1
              · exact .inl (by simpa using h1)
              · exact .inr (by simpa using h1)

/-- Characterization of the Yahoo item loop: starting from an accumulator
that is not yet full, it appends the accepted records of the remaining
containers, in document order, up to the remaining capacity. -/
theorem yahooLoop_eq_take (limit : Nat) :
    ∀ (rest : List YStreamItem) (acc : List YahooNewsItem),
      acc.length ≤ limit →
      yahooLoop limit rest acc =
        acc ++ (rest.filterMap processYahooItem).take (limit - acc.length)
  | [], acc, _ => by simp [yahooLoop]
  | item :: rest, acc, h => by
    by_cases hfull : limit ≤ acc.length
    · have h0 : limit - acc.length = 0 := Nat.sub_eq_zero_of_le hfull
      simp [yahooLoop, hfull, h0]
    · have hlt : acc.length < limit := Nat.lt_of_not_le hfull
      cases hp : processYahooItem item with
      | none =>
        have hstep : yahooLoop limit (item :: rest) acc = yahooLoop limit rest acc := by
          simp [yahooLoop, hfull, hp]
        rw [hstep, yahooLoop_eq_take limit rest acc h]
        simp [List.filterMap_cons, hp]
      | some r =>
        have hstep : yahooLoop limit (item :: rest) acc =
            yahooLoop limit rest (acc ++ [r]) := by
          simp [yahooLoop, hfull, hp]
        rw [hstep, yahooLoop_eq_take limit rest (acc ++ [r]) (by simp; omega)]
        obtain ⟨k, hk⟩ : ∃ k, limit - acc.length = k + 1 :=
          ⟨limit - acc.length - 1, by omega⟩
        have hk1 : limit - (acc ++ [r]).length = k := by simp; omega
        have hk2 : limit - (acc.length + 1) = k := by omega
        simp [List.filterMap_cons, hp, hk, hk1, hk2, List.take_succ_cons]

/-- `find_all` with any limit returns a sublist of the matches. -/
theorem bs4Limit_sublist (n : Nat) (l : List α) : List.Sublist (bs4Limit n l) l := by
  unfold bs4Limit
  split
  · exact List.Sublist.refl l
  · exact List.take_sublist n l

/-- A successful `fetch_hacker_news` call went through a received
response with a success status, and its value is the parse result. -/
theorem fetch_hn_ok (limit : Nat) (net : HttpResult (List HNStory))
    (l : List HackerNewsItem) (h : fetch_hacker_news limit net = .ok l) :
    ∃ doc, net = .response true doc ∧ hnParse limit doc = .ok l := by
  cases net with
  | connError => exact absurd h (by simp [fetch_hacker_news])
  | timeoutExc => exact absurd h (by simp [fetch_hacker_news])
  | otherExc => exact absurd h (by simp [fetch_hacker_news])
  | response ok doc =>
    cases ok with
    | false => exact absurd h (by simp [fetch_hacker_news])
    | true => exact ⟨doc, rfl, by simpa [fetch_hacker_news] using h⟩

/-- A successful `fetch_yahoo_news` call went through a received
response with a success status, and its value is the parse result. -/
theorem fetch_yahoo_ok (limit : Nat) (net : HttpResult (List YStreamItem))
    (l : List YahooNewsItem) (h : fetch_yahoo_news limit net = .ok l) :
    ∃ doc, net = .response true doc ∧ yahooParse limit doc = .ok l := by
  cases net with
  | connError => exact absurd h (by simp [fetch_yahoo_news])
  | timeoutExc => exact absurd h (by simp [fetch_yahoo_news])
  | otherExc => exact absurd h (by simp [fetch_yahoo_news])
  | response ok doc =>
    cases ok with
    | false => exact absurd h (by simp [fetch_yahoo_news])
    | true => exact ⟨doc, rfl, by simpa [fetch_yahoo_news] using h⟩

/-- A successful Hacker News parse returns exactly the stable descending
sort of the non-empty extraction list. -/
theorem hnParse_ok_eq (limit : Nat) (doc : List HNStory)
    (l : List HackerNewsItem) (h : hnParse limit doc = .ok l) :
    hnExtract limit doc ≠ [] ∧ l = (hnExtract limit doc).mergeSort hnScoreGE := by
  simp only [hnParse] at h
  split at h
  · exact absurd h (by simp)
  · rename_i hne
    injection h with h
    exact ⟨by simpa using hne, h.symm⟩

/-- A successful Yahoo News parse returns exactly the first `limit`
accepted records of the scanned containers, in document order. -/
theorem yahooParse_ok_eq (limit : Nat) (doc : List YStreamItem)
    (l : List YahooNewsItem) (h : yahooParse limit doc = .ok l) :
    l ≠ [] ∧
      l = ((bs4Limit (limit * 2) doc).filterMap processYahooItem).take limit := by
  have hloop := yahooLoop_eq_take limit (bs4Limit (limit * 2) doc) [] (by simp)
  simp only [yahooParse, hloop, List.nil_append, Nat.sub_zero] at h
  split at h
  · exact absurd h (by simp)
  · rename_i hne
    injection h with h
    exact ⟨by simp [← h]; simpa using hne, h.symm⟩

/-- Concrete run: the singleton document around `hnStoryA`. -/
theorem fetch_hn_runA :
    fetch_hacker_news 30 (.response true [hnStoryA]) = .ok [hnItemA] := by
  have hext : hnExtract 30 [hnStoryA] = [hnItemA] := by decide
  simp [fetch_hacker_news, hnParse, hext]

/-- Concrete run: `hnStoryA` then `hnStoryB`, extracted scores already
descending, so the stable sort returns them unchanged. -/
theorem fetch_hn_runAB :
    fetch_hacker_news 30 (.response true [hnStoryA, hnStoryB]) =
      .ok [hnItemA, hnItemB] := by
  have hext : hnExtract 30 [hnStoryA, hnStoryB] = [hnItemA, hnItemB] := by decide
  have hsorted : List.Pairwise (fun a b => hnScoreGE a b = true)
      [hnItemA, hnItemB] := by decide
  simp only [fetch_hacker_news, hnParse, hext, if_true]
  rw [List.mergeSort_of_sorted hsorted]
  simp

/-- Concrete run: two stories with equal scores stay in document order. -/
theorem fetch_hn_runCD :
    fetch_hacker_news 30 (.response true [hnStoryC, hnStoryD]) =
      .ok [hnItemC, hnItemD] := by
  have hext : hnExtract 30 [hnStoryC, hnStoryD] = [hnItemC, hnItemD] := by decide
  have hsorted : List.Pairwise (fun a b => hnScoreGE a b = true)
      [hnItemC, hnItemD] := by decide
  simp only [fetch_hacker_news, hnParse, hext, if_true]
  rw [List.mergeSort_of_sorted hsorted]
  simp

/-- The descending-score comparison is transitive. -/
theorem hnScoreGE_trans : ∀ (a b c : HackerNewsItem),
    hnScoreGE a b → hnScoreGE b c → hnScoreGE a c := fun a b c hab hbc => by
  simp only [hnScoreGE, decide_eq_true_eq] at hab hbc ⊢
  omega

/-- The descending-score comparison is total. -/
theorem hnScoreGE_total : ∀ (a b : HackerNewsItem),
    hnScoreGE a b || hnScoreGE b a := fun a b => by
  simp only [hnScoreGE, Bool.or_eq_true, decide_eq_true_eq]
  omega

/-- Claim C1: every list returned by `fetch_hacker_news` has its `score`
values non-increasing across the sequence: the successfully extracted
items are sorted by score descending before being returned. -/
theorem hn_scores_nonincreasing (limit : Nat) (net : HttpResult (List HNStory))
    (l : List HackerNewsItem) (h : fetch_hacker_news limit net = .ok l) :
    l.Pairwise (fun a b => b.score ≤ a.score) := by
  obtain ⟨doc, -, hp⟩ := fetch_hn_ok limit net l h
  obtain ⟨-, rfl⟩ := hnParse_ok_eq limit doc l hp
  have hs := List.sorted_mergeSort hnScoreGE_trans hnScoreGE_total
    (hnExtract limit doc)
  exact hs.imp (fun hab => by
    simpa only [hnScoreGE, decide_eq_true_eq] using hab)

/-- Witness for C1 on a concrete two-story document. -/
theorem hn_scores_nonincreasing_witness :
    fetch_hacker_news 30 (.response true [hnStoryA, hnStoryB]) =
        .ok [hnItemA, hnItemB] ∧
      List.Pairwise (fun a b : HackerNewsItem => b.score ≤ a.score)
        [hnItemA, hnItemB] :=
  ⟨fetch_hn_runAB, hn_scores_nonincreasing 30 _ _ fetch_hn_runAB⟩

/-- Claim C2: for any positive `limit`, a successful call of either
fetch function returns a list of length at most `limit`. -/
theorem fetch_length_le_limit (limit : Nat)
    (net₁ : HttpResult (List HNStory)) (net₂ : HttpResult (List YStreamItem))
    (l₁ : List HackerNewsItem) (l₂ : List YahooNewsItem)
    (hpos : 0 < limit)
    (h₁ : fetch_hacker_news limit net₁ = .ok l₁)
    (h₂ : fetch_yahoo_news limit net₂ = .ok l₂) :
    l₁.length ≤ limit ∧ l₂.length ≤ limit := by
  constructor
  · obtain ⟨doc, -, hp⟩ := fetch_hn_ok limit net₁ l₁ h₁
    obtain ⟨-, rfl⟩ := hnParse_ok_eq limit doc l₁ hp
    rw [List.length_mergeSort]
    calc (hnExtract limit doc).length
        ≤ (bs4Limit limit doc).length :=
          List.length_filterMap_le processStory (bs4Limit limit doc)
      _ ≤ limit := by
          unfold bs4Limit
          rw [if_neg (by omega)]
          exact List.length_take_le limit doc
  · obtain ⟨doc, -, hp⟩ := fetch_yahoo_ok limit net₂ l₂ h₂
    obtain ⟨-, rfl⟩ := yahooParse_ok_eq limit doc l₂ hp
    exact List.length_take_le limit _

/-- Witness for C2 on concrete one-item documents for both sources. -/
theorem fetch_length_le_limit_witness :
    0 < 30 ∧ ([hnItemA].length ≤ 30 ∧ [yRecA].length ≤ 30) := by
  have hy : fetch_yahoo_news 30 (.response true [yStreamA]) = .ok [yRecA] := by
    decide
  exact ⟨by decide,
    fetch_length_le_limit 30 (.response true [hnStoryA])
      (.response true [yStreamA]) [hnItemA] [yRecA] (by decide)
      fetch_hn_runA hy⟩

/-- Claim C7: both fetch functions classify every network outcome of the
single HTTP GET identically: a connection-level failure becomes
`ConnectionError`, an explicit timeout becomes `TimeoutError` (a kind
distinct from the connectivity one), and any other transport failure,
including a response with a non-success HTTP status, is folded into
`ConnectionError`. -/
theorem transport_error_classification (limit : Nat)
    (doc₁ : List HNStory) (doc₂ : List YStreamItem) :
    fetch_hacker_news limit .connError = .error .connectionError ∧
    fetch_hacker_news limit .timeoutExc = .error .timeoutError ∧
    fetch_hacker_news limit .otherExc = .error .connectionError ∧
    fetch_hacker_news limit (.response false doc₁) = .error .connectionError ∧
    fetch_yahoo_news limit .connError = .error .connectionError ∧
    fetch_yahoo_news limit .timeoutExc = .error .timeoutError ∧
    fetch_yahoo_news limit .otherExc = .error .connectionError ∧
    fetch_yahoo_news limit (.response false doc₂) = .error .connectionError ∧
    FetchError.timeoutError ≠ FetchError.connectionError :=
  ⟨rfl, rfl, rfl, rfl, rfl, rfl, rfl, rfl, by decide⟩

/-- Claim C6: if zero items are successfully extracted from the fetched
document, both fetch functions fail with the data-format error
`ValueError`, a kind distinct from both transport error kinds; and a
successful return is never an empty list. -/
theorem zero_items_format_error (limit : Nat)
    (doc₁ doc₃ : List HNStory) (doc₂ doc₄ : List YStreamItem)
    (l₁ : List HackerNewsItem) (l₂ : List YahooNewsItem)
    (h₁ : hnExtract limit doc₁ = [])
    (h₂ : (bs4Limit (limit * 2) doc₂).filterMap processYahooItem = [])
    (h₃ : fetch_hacker_news limit (.response true doc₃) = .ok l₁)
    (h₄ : fetch_yahoo_news limit (.response true doc₄) = .ok l₂) :
    fetch_hacker_news limit (.response true doc₁) = .error .valueError ∧
    fetch_yahoo_news limit (.response true doc₂) = .error .valueError ∧
    l₁ ≠ [] ∧ l₂ ≠ [] ∧
    FetchError.valueError ≠ FetchError.connectionError ∧
    FetchError.valueError ≠ FetchError.timeoutError := by
  refine ⟨?_, ?_, ?_, ?_, by decide, by decide⟩
  · simp [fetch_hacker_news, hnParse, h₁]
  · have hloop := yahooLoop_eq_take limit (bs4Limit (limit * 2) doc₂) [] (by simp)
    simp [fetch_yahoo_news, yahooParse, hloop, h₂]
  · obtain ⟨doc, -, hp⟩ := fetch_hn_ok limit _ l₁ h₃
    obtain ⟨hne, rfl⟩ := hnParse_ok_eq limit doc l₁ hp
    intro hl
    apply hne
    have hlen : (hnExtract limit doc).length = 0 := by
      simpa [List.length_mergeSort] using congrArg List.length hl
    exact List.length_eq_zero.mp hlen
  · obtain ⟨doc, -, hp⟩ := fetch_yahoo_ok limit _ l₂ h₄
    exact (yahooParse_ok_eq limit doc l₂ hp).1

/-- Witness for C6: empty documents make both pipelines fail with the
format error, while one-item documents return non-empty lists. -/
theorem zero_items_format_error_witness :
    fetch_hacker_news 30 (.response true ([] : List HNStory))
        = .error .valueError ∧
    fetch_yahoo_news 30 (.response true ([] : List YStreamItem))
        = .error .valueError ∧
    ([hnItemA] : List HackerNewsItem) ≠ [] ∧
    ([yRecA] : List YahooNewsItem) ≠ [] ∧
    FetchError.valueError ≠ FetchError.connectionError ∧
    FetchError.valueError ≠ FetchError.timeoutError :=
  zero_items_format_error 30 [] [hnStoryA] [] [yStreamA] [hnItemA] [yRecA]
    (by decide) (by decide) fetch_hn_runA (by decide)

/-- Claim C8: every record returned by `fetch_yahoo_news` has a url
containing one of the two recognized article-path markers, and no
candidate item whose normalized link lacks both markers survives the
per-item filter. -/
theorem yahoo_url_article_marker (limit : Nat)
    (net : HttpResult (List YStreamItem)) (l : List YahooNewsItem)
    (r : YahooNewsItem)
    (h : fetch_yahoo_news limit net = .ok l) (hr : r ∈ l) :
    (strHasSub r.url "/news/" = true ∨ strHasSub r.url "/articles/" = true) ∧
    ∀ (item : YStreamItem) (s : YahooNewsItem), processYahooItem item = some s →
      (strHasSub s.url "/news/" = true ∨ strHasSub s.url "/articles/" = true) := by
  constructor
  · obtain ⟨doc, -, hp⟩ := fetch_yahoo_ok limit net l h
    obtain ⟨-, rfl⟩ := yahooParse_ok_eq limit doc l hp
    have hr' := (List.take_sublist _ _).subset hr
    obtain ⟨item, -, hproc⟩ := List.mem_filterMap.mp hr'
    exact (processYahooItem_some item r hproc).2.2
  · intro item s hproc
    exact (processYahooItem_some item s hproc).2.2

/-- Witness for C8 on a concrete one-item Yahoo document. -/
theorem yahoo_url_article_marker_witness :
    (strHasSub yRecA.url "/news/" = true ∨
      strHasSub yRecA.url "/articles/" = true) ∧
    ∀ (item : YStreamItem) (s : YahooNewsItem), processYahooItem item = some s →
      (strHasSub s.url "/news/" = true ∨ strHasSub s.url "/articles/" = true) :=
  yahoo_url_article_marker 30 (.response true [yStreamA]) [yRecA] yRecA
    (by decide) (by decide)

/-- Claim C9: for positive `limit`, a successful `fetch_yahoo_news` call
scans at most `limit * 2` item containers in document order, stops
extracting once `limit` accepted records have been collected, and
returns the accepted records in the order their containers appear in the
document, with no sorting step. -/
theorem yahoo_scan_order_cap (limit : Nat) (doc : List YStreamItem)
    (l : List YahooNewsItem) (hpos : 0 < limit)
    (h : fetch_yahoo_news limit (.response true doc) = .ok l) :
    l = ((doc.take (limit * 2)).filterMap processYahooItem).take limit := by
  have hp : yahooParse limit doc = .ok l := by simpa [fetch_yahoo_news] using h
  obtain ⟨-, hl⟩ := yahooParse_ok_eq limit doc l hp
  rw [hl]
  unfold bs4Limit
  rw [if_neg (by omega)]

/-- Witness for C9: the document-order scenario with three containers,
one of which lacks a title element. -/
theorem yahoo_scan_order_cap_witness :
    0 < 5 ∧
      fetch_yahoo_news 5 (.response true [yStreamA, yStreamBad, yStreamB])
        = .ok [yRecA, yRecB] ∧
      [yRecA, yRecB] =
        ((([yStreamA, yStreamBad, yStreamB] : List YStreamItem).take
          (5 * 2)).filterMap processYahooItem).take 5 :=
  ⟨by decide, by decide,
    yahoo_scan_order_cap 5 [yStreamA, yStreamBad, yStreamB] [yRecA, yRecB]
      (by decide) (by decide)⟩

/-- Claim C10: the descending-score sort of `fetch_hacker_news` is
stable: any two returned items with equal scores appear in the returned
list in the same relative order as their story rows appear in the
document (the extraction list `hnExtract` is in document order). -/
theorem hn_sort_stable (limit : Nat) (doc : List HNStory)
    (l : List HackerNewsItem) (a b : HackerNewsItem)
    (h : fetch_hacker_news limit (.response true doc) = .ok l)
    (hsub : List.Sublist [a, b] (hnExtract limit doc))
    (heq : a.score = b.score) :
    List.Sublist [a, b] l := by
  have hp : hnParse limit doc = .ok l := by simpa [fetch_hacker_news] using h
  obtain ⟨-, rfl⟩ := hnParse_ok_eq limit doc l hp
  refine List.sublist_mergeSort hnScoreGE_trans hnScoreGE_total ?_ hsub
  simp [List.pairwise_cons, hnScoreGE, heq]

/-- Witness for C10: two equal-score stories keep their document order
in the returned list. -/
theorem hn_sort_stable_witness :
    fetch_hacker_news 30 (.response true [hnStoryC, hnStoryD])
        = .ok [hnItemC, hnItemD] ∧
      List.Sublist [hnItemC, hnItemD] (hnExtract 30 [hnStoryC, hnStoryD]) ∧
      hnItemC.score = hnItemD.score ∧
      List.Sublist [hnItemC, hnItemD] [hnItemC, hnItemD] :=
  ⟨fetch_hn_runCD, by decide, by decide,
    hn_sort_stable 30 [hnStoryC, hnStoryD] [hnItemC, hnItemD] hnItemC hnItemD
      fetch_hn_runCD (by decide) (by decide)⟩

/-- The url of a record extracted by `fetch_hacker_news` is the anchor's
href, prefixed with the site origin exactly when the href starts with
the item-id marker. -/
theorem processStory_url (story : HNStory) (tl : HNTitleLine) (lk : Anchor)
    (it : HackerNewsItem) (htl : story.titleline? = some tl)
    (hlk : tl.link? = some lk) (hit : processStory story = some it) :
    it.url =
      if strStartsWith (lk.href?.getD "") "item?id=" then
        "https://news.ycombinator.com/" ++ lk.href?.getD ""
      else lk.href?.getD "" := by
  obtain ⟨tl?, sib?⟩ := story
  obtain rfl : tl? = some tl := htl
  obtain ⟨lk?⟩ := tl
  obtain rfl : lk? = some lk := hlk
  obtain ⟨txt, href?⟩ := lk
  cases sib? with
  | none => exact absurd hit (by simp [processStory])
  | some sib =>
    obtain ⟨sub?⟩ := sib
    cases sub? with
    | none => exact absurd hit (by simp [processStory])
    | some subtext =>
      simp only [processStory] at hit
      split at hit
      · exact absurd hit (by simp)
      · obtain rfl : _ = it := Option.some_inj.mp hit
        rfl

/-- Claim C3 counterexample: a Hacker News story whose href is relative
but does not start with the item-id marker is included with its url kept
relative — not rewritten to an absolute URL. -/
theorem url_absolute_counterexample :
    fetch_hacker_news 30 (.response true [hnStoryRel]) = .ok [hnItemRel] ∧
    hnItemRel.url = "relative.html" ∧
    strStartsWith hnItemRel.url "http" = false ∧
    strHasSub hnItemRel.url "://" = false := by
  refine ⟨?_, rfl, by decide, by decide⟩
  have hext : hnExtract 30 [hnStoryRel] = [hnItemRel] := by decide
  simp [fetch_hacker_news, hnParse, hext]

/-- Claim C3 (amended): in Source-B the url of every record included in
the returned list starts with `http` (site-relative links having been
rewritten with the site origin); in Source-A only hrefs starting with
the item-id path marker are rewritten using the site origin, every other
href being included unchanged (possibly relative). -/
theorem url_normalization_amended (limit : Nat)
    (net : HttpResult (List YStreamItem)) (l : List YahooNewsItem)
    (r : YahooNewsItem)
    (h : fetch_yahoo_news limit net = .ok l) (hr : r ∈ l) :
    strStartsWith r.url "http" = true ∧
    ∀ (story : HNStory) (tl : HNTitleLine) (lk : Anchor)
        (it : HackerNewsItem),
      story.titleline? = some tl → tl.link? = some lk →
      processStory story = some it →
      it.url =
        if strStartsWith (lk.href?.getD "") "item?id=" then
          "https://news.ycombinator.com/" ++ lk.href?.getD ""
        else lk.href?.getD "" := by
  constructor
  · obtain ⟨doc, -, hp⟩ := fetch_yahoo_ok limit net l h
    obtain ⟨-, rfl⟩ := yahooParse_ok_eq limit doc l hp
    have hr' := (List.take_sublist _ _).subset hr
    obtain ⟨item, -, hproc⟩ := List.mem_filterMap.mp hr'
    exact (processYahooItem_some item r hproc).2.1
  · intro story tl lk it htl hlk hit
    exact processStory_url story tl lk it htl hlk hit

/-- Witness for the amended C3 on concrete inputs for both sources. -/
theorem url_normalization_amended_witness :
    strStartsWith yRecA.url "http" = true ∧
    ∀ (story : HNStory) (tl : HNTitleLine) (lk : Anchor)
        (it : HackerNewsItem),
      story.titleline? = some tl → tl.link? = some lk →
      processStory story = some it →
      it.url =
        if strStartsWith (lk.href?.getD "") "item?id=" then
          "https://news.ycombinator.com/" ++ lk.href?.getD ""
        else lk.href?.getD "" :=
  url_normalization_amended 30 (.response true [yStreamA]) [yRecA] yRecA
    (by decide) (by decide)

/-- Claim C4 counterexample: a story whose score label text is present
but whose leading token is unparsable as an integer is skipped entirely
(here making the whole parse fail with the format error), not included
with score 0. -/
theorem hn_unparsable_score_counterexample :
    hnStoryBadScore.nextSibling? = some ⟨some ⟨some "points only",
        some "oscar", none⟩⟩ ∧
    firstToken "points only".data = some "points".data ∧
    pyInt "points".data = none ∧
    processStory hnStoryBadScore = none ∧
    fetch_hacker_news 30 (.response true [hnStoryBadScore])
      = .error .valueError := by
  refine ⟨by decide, by decide, by decide, by decide, ?_⟩
  have hext : hnExtract 30 [hnStoryBadScore] = [] := by decide
  simp [fetch_hacker_news, hnParse, hext]

/-- Claim C4 (amended): for a story row with title, link and metadata
present, an absent score label or an empty label text yields an included
item with score 0; a label whose leading token parses as an integer
yields an included item with that integer as score; a non-empty label
whose leading token does not parse as an integer makes the item be
skipped. -/
theorem hn_score_extraction_amended (lk : Anchor) (sub : HNSubtext) :
    (sub.scoreText? = none →
      ∃ it, processStory ⟨some ⟨some lk⟩, some ⟨some sub⟩⟩ = some it ∧
        it.score = 0) ∧
    (sub.scoreText? = some "" →
      ∃ it, processStory ⟨some ⟨some lk⟩, some ⟨some sub⟩⟩ = some it ∧
        it.score = 0) ∧
    (∀ (s : String) (tok : List Char) (n : Int),
      sub.scoreText? = some s → s ≠ "" →
      firstToken s.data = some tok → pyInt tok = some n →
      ∃ it, processStory ⟨some ⟨some lk⟩, some ⟨some sub⟩⟩ = some it ∧
        it.score = n) ∧
    (∀ (s : String) (tok : List Char),
      sub.scoreText? = some s → s ≠ "" →
      firstToken s.data = some tok → pyInt tok = none →
      processStory ⟨some ⟨some lk⟩, some ⟨some sub⟩⟩ = none) ∧
    (∀ (s : String),
      sub.scoreText? = some s → s ≠ "" → firstToken s.data = none →
      processStory ⟨some ⟨some lk⟩, some ⟨some sub⟩⟩ = none) := by
  refine ⟨?_, ?_, ?_, ?_, ?_⟩
  · intro h
    simp only [processStory, h]
    exact ⟨_, rfl, rfl⟩
  · intro h
    simp only [processStory, h, if_pos rfl]
    exact ⟨_, rfl, rfl⟩
  · intro s tok n hs hne htok hn
    simp only [processStory, hs, if_neg hne, htok, hn]
    exact ⟨_, rfl, rfl⟩
  · intro s tok hs hne htok hn
    simp only [processStory, hs, if_neg hne, htok, hn]
  · intro s hs hne htok
    simp only [processStory, hs, if_neg hne, htok]

/-- Witness for the amended C4: an absent score label defaults to 0 and
a parsable label yields the leading token's value. -/
theorem hn_score_extraction_amended_witness :
    (∃ it, processStory ⟨some ⟨some ⟨"NoScore", some "https://example.com/n"⟩⟩,
        some ⟨some ⟨none, none, none⟩⟩⟩ = some it ∧ it.score = 0) ∧
    (∃ it, processStory ⟨some ⟨some ⟨"Alpha", some "https://example.com/a"⟩⟩,
        some ⟨some ⟨some "80 points", some "alice", some ⟨some "1 hour ago"⟩⟩⟩⟩
        = some it ∧ it.score = 80) :=
  ⟨(hn_score_extraction_amended ⟨"NoScore", some "https://example.com/n"⟩
      ⟨none, none, none⟩).1 rfl,
   (hn_score_extraction_amended ⟨"Alpha", some "https://example.com/a"⟩
      ⟨some "80 points", some "alice", some ⟨some "1 hour ago"⟩⟩).2.2.1
      "80 points" "80".data 80 rfl (by decide) (by decide) (by decide)⟩

/-- Claim C5 counterexample: a Hacker News story whose anchor text is
empty is included in the returned list with an empty title. -/
theorem title_nonempty_counterexample :
    fetch_hacker_news 30 (.response true [hnStoryEmptyTitle])
        = .ok [hnItemEmptyTitle] ∧
    hnItemEmptyTitle.title = "" := by
  refine ⟨?_, rfl⟩
  have hext : hnExtract 30 [hnStoryEmptyTitle] = [hnItemEmptyTitle] := by decide
  simp [fetch_hacker_news, hnParse, hext]

/-- Claim C5 (amended): in Source-B the title of every record included
in the returned list is non-empty; Source-A gives no such guarantee. -/
theorem yahoo_title_nonempty_amended (limit : Nat)
    (net : HttpResult (List YStreamItem)) (l : List YahooNewsItem)
    (r : YahooNewsItem)
    (h : fetch_yahoo_news limit net = .ok l) (hr : r ∈ l) :
    r.title ≠ "" := by
  obtain ⟨doc, -, hp⟩ := fetch_yahoo_ok limit net l h
  obtain ⟨-, rfl⟩ := yahooParse_ok_eq limit doc l hp
  have hr' := (List.take_sublist _ _).subset hr
  obtain ⟨item, -, hproc⟩ := List.mem_filterMap.mp hr'
  exact (processYahooItem_some item r hproc).1

/-- Witness for the amended C5 on a concrete one-item Yahoo document. -/
theorem yahoo_title_nonempty_amended_witness : yRecA.title ≠ "" :=
  yahoo_title_nonempty_amended 30 (.response true [yStreamA]) [yRecA] yRecA
    (by decide) (by decide)
